import Mathlib

/-!
Verification development for the mempool-watch repository.

The definitions below are a shallow embedding of the TypeScript source:

* the transaction normalizer `rawTxToPendingTransaction`
  (src/unnamed/part_001, lines 56-79);
* the per-event persistence/broadcast step `handleTransaction` and the
  prisma `upsert` it performs (src/unnamed/part_002 lines 235-264 and
  src/backend/src/mempool/watcher.ts lines 209-241);
* the downstream `TransactionBroadcaster` of src/backend/src/api/routes.ts
  (client state, `handleClientMessage`, `broadcast`, `broadcastChainStatus`);
* the upstream WebSocket message handler of `MempoolWatcher.watchChainRaw`
  (src/unnamed/part_002, lines 119-161) together with `scheduleReconnect`.

JavaScript numeric primitives (`BigInt(string)`, the base-10 rendering
`BigInt.prototype.toString`, and `parseInt(s, 16)`) are modelled over
`Nat`; the inputs exercised by the theorems are the non-negative hex
literals the upstream protocol delivers, so sign and whitespace handling
of the JS primitives are out of scope and noted at each definition.
-/

namespace MempoolWatch

/-! ### JS numeric string primitives -/

/-- Value of one hexadecimal digit character (0-9, a-f, A-F). -/
def hexDigitVal? (c : Char) : Option Nat :=
  if 48 ≤ c.toNat ∧ c.toNat ≤ 57 then some (c.toNat - 48)
  else if 97 ≤ c.toNat ∧ c.toNat ≤ 102 then some (c.toNat - 87)
  else if 65 ≤ c.toNat ∧ c.toNat ≤ 70 then some (c.toNat - 55)
  else none

/-- Most-significant-first accumulation of hex digits; fails at the first
non-hex character. -/
def hexDigitsCore : List Char → Nat → Option Nat
  | [], acc => some acc
  | c :: cs, acc =>
    match hexDigitVal? c with
    | some d => hexDigitsCore cs (16 * acc + d)
    | none => none

/-- Value of a non-empty all-hex digit string (no prefix). -/
def hexDigitsVal? (cs : List Char) : Option Nat :=
  if cs.isEmpty then none else hexDigitsCore cs 0

/-- Value of one decimal digit character. -/
def decDigitVal? (c : Char) : Option Nat :=
  if 48 ≤ c.toNat ∧ c.toNat ≤ 57 then some (c.toNat - 48) else none

/-- Most-significant-first accumulation of decimal digits; fails at the
first non-digit character. -/
def decParseCore : List Char → Nat → Option Nat
  | [], acc => some acc
  | c :: cs, acc =>
    match decDigitVal? c with
    | some d => decParseCore cs (10 * acc + d)
    | none => none

/-- Parse a non-empty, unsigned, all-decimal-digit string. -/
def decParse? (s : String) : Option Nat :=
  if s.data.isEmpty then none else decParseCore s.data 0

/-- Model of JS BigInt(s) on the inputs this system feeds it: the empty
string yields 0; a 0x/0X prefix selects exact hexadecimal decoding; any
other input is read as an unsigned decimal literal.  (Whitespace
trimming, signs and the 0b/0o prefixes of full JS are never produced by
the upstream payloads and are not modelled.)  `none` models a thrown
SyntaxError. -/
def jsBigIntStr? (s : String) : Option Nat :=
  let cs := s.data
  if cs.isEmpty then some 0
  else if cs.take 2 = ['0', 'x'] ∨ cs.take 2 = ['0', 'X'] then
    hexDigitsVal? (cs.drop 2)
  else decParseCore cs 0

/-- Model of JS parseInt(s, 16) on unsigned inputs: an optional 0x/0X
prefix is skipped, then the longest leading run of hex digits is decoded;
`none` models the NaN result when no digit is consumed. -/
def parseIntHex? (s : String) : Option Nat :=
  let cs :=
    if s.data.take 2 = ['0', 'x'] ∨ s.data.take 2 = ['0', 'X'] then s.data.drop 2
    else s.data
  let digs := cs.takeWhile (fun c => (hexDigitVal? c).isSome)
  if digs.isEmpty then none else hexDigitsCore digs 0

/-- Least-significant-first decimal digits of `n`; `fuel` bounds the
recursion and is always instantiated with a bound at least `n`. -/
def decDigitsCore (fuel n : Nat) : List Nat :=
  match fuel with
  | 0 => []
  | fuel + 1 => if n = 0 then [] else n % 10 :: decDigitsCore fuel (n / 10)

/-- Model of the JS BigInt base-10 rendering toString() for non-negative
values: the exact unsigned decimal rendering of `n`, with no leading
zeros and no sign. -/
def decString (n : Nat) : String :=
  if n = 0 then "0"
  else ⟨((decDigitsCore n n).reverse).map (fun d => Char.ofNat (48 + d))⟩

/-- Numeric value of a least-significant-first digit list. -/
def decVal (l : List Nat) : Nat :=
  l.foldr (fun d acc => d + 10 * acc) 0

/-! ### Data model (src/unnamed/part_001, PendingTransaction) -/

inductive TxStatus where
  | pending
  | confirmed
  | dropped
  deriving DecidableEq, Repr

/-- The canonical PendingTransaction record.  `fromAddr`/`toAddr` embed
the TS fields named from/to (from is reserved in Lean); `toAddr = none`
models JSON null.  `nonce` and `type` are parseInt results, where `none`
models NaN.  The timestamp field (ingestion wall clock) carries no
information the claims depend on and is omitted. -/
structure PendingTx where
  hash : String
  chainId : Nat
  fromAddr : String
  toAddr : Option String
  value : String
  gasPrice : String
  gasLimit : String
  maxFeePerGas : Option String
  maxPriorityFeePerGas : Option String
  input : String
  nonce : Option Nat
  type : Option Nat
  status : TxStatus
  deriving DecidableEq, Repr

/-- A raw upstream transaction payload as consumed by
`rawTxToPendingTransaction`: a string-keyed JSON object whose numeric
fields are hex strings or absent (`none` models a missing key).
`hash`, `fromAddr` and `input` are kept as plain strings: every call site
in the watcher guards on a truthy hash, and no claim concerns payloads
whose hash/from/input keys are missing. -/
structure RawTx where
  hash : String
  fromAddr : String
  toAddr : Option String
  value : Option String
  gasPrice : Option String
  gas : Option String
  maxFeePerGas : Option String
  maxPriorityFeePerGas : Option String
  input : String
  nonce : Option String
  type : Option String
  deriving DecidableEq, Repr

/-- JS `a || b` on an optional string `a`: a missing key and the empty
string are falsy and fall through to `b`. -/
def jsOrStr (a : Option String) (b : String) : String :=
  match a with
  | some s => if s = "" then b else s
  | none => b

/-- The conditional-decode pattern used for the two optional fee fields
(decode and render when truthy, undefined otherwise): falsy (absent or
empty) yields undefined without decoding; otherwise the hex decode runs
and may throw (outer `none`). -/
def optBigIntField? (v : Option String) : Option (Option Nat) :=
  match v with
  | some s => if s = "" then some none else (jsBigIntStr? s).map some
  | none => some none

/-- Shallow embedding of `rawTxToPendingTransaction`
(src/unnamed/part_001, lines 56-79).  The outer `Option` models the
exception thrown by a failing BigInt conversion, which the caller
(`handleSubscriptionEvent`) catches; field order follows the source, so
the first failing field aborts the conversion. -/
def rawTxToPendingTransaction (tx : RawTx) (chainId : Nat) : Option PendingTx := do
  let v ← jsBigIntStr? (jsOrStr tx.value "0x0")
  let gp ← jsBigIntStr? (jsOrStr tx.gasPrice (jsOrStr tx.maxFeePerGas "0x0"))
  let gl ← jsBigIntStr? (jsOrStr tx.gas "0x0")
  let mf ← optBigIntField? tx.maxFeePerGas
  let mpf ← optBigIntField? tx.maxPriorityFeePerGas
  some
    { hash := tx.hash
      chainId := chainId
      fromAddr := tx.fromAddr
      toAddr := tx.toAddr
      value := decString v
      gasPrice := decString gp
      gasLimit := decString gl
      maxFeePerGas := mf.map decString
      maxPriorityFeePerGas := mpf.map decString
      input := tx.input
      nonce := parseIntHex? (jsOrStr tx.nonce "0x0")
      type :=
        match tx.type with
        | some s => if s = "" then some 0 else parseIntHex? s
        | none => some 0
      status := TxStatus.pending }

/-! ### Store and per-event handling
(src/unnamed/part_002, handleTransaction, lines 235-264; identical in
src/backend/src/mempool/watcher.ts lines 209-241) -/

/-- The prisma upsert keyed on hash, with update = status only and
create = all fields: if a row with the hash exists, only its status
column is overwritten with the incoming status; otherwise the full
record is inserted. -/
def storeUpsert (store : List PendingTx) (tx : PendingTx) : List PendingTx :=
  if store.any (fun r => r.hash == tx.hash) then
    store.map (fun r => if r.hash == tx.hash then { r with status := tx.status } else r)
  else
    tx :: store

/-- Result of awaiting the upsert promise: it resolves (`ok`) or rejects,
with a rejection message that either contains the text Unique constraint
(`uniqueViolation`) or not (`otherFailure`).  A rejected upsert leaves
the database row unwritten. -/
inductive UpsertOutcome where
  | ok
  | uniqueViolation
  | otherFailure
  deriving DecidableEq, Repr

structure HandleResult where
  store : List PendingTx
  emitted : Bool
  loggedError : Bool
  deriving DecidableEq, Repr

/-- `MempoolWatcher.handleTransaction`: the upsert and the
emit(transaction, tx) broadcast sit in one try block, the emit after the
upsert; the catch logs unless the message contains Unique constraint,
and never emits. -/
def handleTransaction (store : List PendingTx) (tx : PendingTx)
    (outcome : UpsertOutcome) : HandleResult :=
  match outcome with
  | .ok => { store := storeUpsert store tx, emitted := true, loggedError := false }
  | .uniqueViolation => { store := store, emitted := false, loggedError := false }
  | .otherFailure => { store := store, emitted := false, loggedError := true }

/-! ### Downstream broadcaster
(src/backend/src/api/routes.ts, TransactionBroadcaster, lines 184-326) -/

/-- Per-subscriber state: `openConn` models the readyState OPEN check;
`subscribedChains` models the Set of chain ids, the empty set meaning
all chains. -/
structure ClientState where
  openConn : Bool
  subscribedChains : List Nat
  deriving DecidableEq, Repr

/-- State installed on connection: an empty subscription set. -/
def initialClientState : ClientState :=
  { openConn := true, subscribedChains := [] }

/-- The per-client send condition of `broadcast`: the subscription set is
empty, or it contains the chain id of the transaction. -/
def shouldSend (st : ClientState) (chainId : Nat) : Bool :=
  st.subscribedChains.isEmpty || st.subscribedChains.contains chainId

/-- `TransactionBroadcaster.broadcast` (lines 286-301): the set of clients
to which the transaction frame is written. -/
def broadcast (clients : List ClientState) (tx : PendingTx) : List ClientState :=
  clients.filter (fun st => shouldSend st tx.chainId && st.openConn)

/-- `TransactionBroadcaster.broadcastChainStatus` (lines 306-318): the set
of clients to which the chainStatus frame is written; only the socket
state is consulted. -/
def broadcastChainStatus (clients : List ClientState) (_chainId : Nat)
    (_connected : Bool) : List ClientState :=
  clients.filter (fun st => st.openConn)

inductive ClientReply where
  | subscribed (chains : List Nat)
  | pong
  deriving DecidableEq, Repr

/-- A decoded downstream client message.  `subscribe none` models a
subscribe frame whose chains value fails the Array.isArray check. -/
inductive ClientMsg where
  | subscribe (chains : Option (List Nat))
  | unsubscribe
  | ping
  | other
  deriving DecidableEq, Repr

/-- `TransactionBroadcaster.handleClientMessage` (lines 241-281). -/
def handleClientMessage (st : ClientState) (msg : ClientMsg) :
    ClientState × Option ClientReply :=
  match msg with
  | .subscribe (some chains) =>
    ({ st with subscribedChains := chains }, some (.subscribed chains))
  | .subscribe none => (st, none)
  | .unsubscribe => ({ st with subscribedChains := [] }, some (.subscribed []))
  | .ping => (st, some .pong)
  | .other => (st, none)

/-! ### Upstream session message handling
(src/unnamed/part_002, watchChainRaw lines 119-161, scheduleReconnect
lines 266-291) -/

/-- JS truthiness of an optional string value. -/
def optTruthy : Option String → Bool
  | none => false
  | some s => s != ""

/-- A decoded upstream JSON-RPC frame as inspected by the socket message
handler: `error` holds the (stringified) error member when present,
`hasParams` the truthiness of params. -/
structure WsMessage where
  id : Option Nat
  result : Option String
  error : Option String
  method : Option String
  hasParams : Bool
  deriving DecidableEq, Repr

/-- Observable effect of running the socket message handler on one frame:
the new subscription id, whether console.error ran, whether
`scheduleReconnect` was invoked, whether the socket was closed by the
handler, and whether the frame was forwarded to
handleSubscriptionEvent. -/
structure MsgEffect where
  subscriptionId : Option String
  loggedError : Bool
  reconnectScheduled : Bool
  socketClosed : Bool
  handledNotification : Bool
  deriving DecidableEq, Repr

/-- The socket message handler of `watchChainRaw`: a subscribe ack
(id equal to 1 with a truthy result) records the subscription id;
otherwise a truthy error member is logged with console.error and the
handler returns; otherwise an eth_subscription notification with params
is processed.  No branch closes the socket or calls
`scheduleReconnect`. -/
def wsOnMessage (subId : Option String) (msg : WsMessage) : MsgEffect :=
  if msg.id == some 1 && optTruthy msg.result then
    { subscriptionId := msg.result, loggedError := false, reconnectScheduled := false,
      socketClosed := false, handledNotification := false }
  else if optTruthy msg.error then
    { subscriptionId := subId, loggedError := true, reconnectScheduled := false,
      socketClosed := false, handledNotification := false }
  else if msg.method == some "eth_subscription" && msg.hasParams then
    { subscriptionId := subId, loggedError := false, reconnectScheduled := false,
      socketClosed := false, handledNotification := true }
  else
    { subscriptionId := subId, loggedError := false, reconnectScheduled := false,
      socketClosed := false, handledNotification := false }

/-- Effect of `scheduleReconnect`: when the watcher is running it emits
the disconnected event and arms the 5-second reconnect timer; after
stop() it returns immediately. -/
structure ReconnectEffect where
  timerScheduled : Bool
  emittedDisconnected : Bool
  deriving DecidableEq, Repr

def scheduleReconnect (isRunning : Bool) : ReconnectEffect :=
  if isRunning then { timerScheduled := true, emittedDisconnected := true }
  else { timerScheduled := false, emittedDisconnected := false }

/-- The socket close handler: clears the ping interval and invokes
`scheduleReconnect` — the only place a reconnect is scheduled while
streaming. -/
def wsOnClose (isRunning : Bool) : ReconnectEffect :=
  scheduleReconnect isRunning

/-! ### Concrete fixtures used by witness and counterexample theorems -/

/-- A concrete well-formed record with the given hash, chain and status. -/
def mkTx (h : String) (cid : Nat) (st : TxStatus) : PendingTx :=
  { hash := h, chainId := cid, fromAddr := "0x01", toAddr := some "0x02",
    value := "1", gasPrice := "1", gasLimit := "21000", maxFeePerGas := none,
    maxPriorityFeePerGas := none, input := "0x", nonce := some 0, type := some 0,
    status := st }

/-- Raw payload whose five big-integer fields all hold the hex literal for
10^18 (one ether in wei). -/
def c4raw : RawTx :=
  { hash := "0xaaaaaaaaaaaaaaaaaaaaaaaaaaaaaaaaaaaaaaaaaaaaaaaaaaaaaaaaaaaaaaaa"
    fromAddr := "0x0101010101010101010101010101010101010101"
    toAddr := some "0x0202020202020202020202020202020202020202"
    value := some "0xde0b6b3a7640000"
    gasPrice := some "0xde0b6b3a7640000"
    gas := some "0xde0b6b3a7640000"
    maxFeePerGas := some "0xde0b6b3a7640000"
    maxPriorityFeePerGas := some "0xde0b6b3a7640000"
    input := "0x"
    nonce := some "0x5"
    type := some "0x0" }

/-- Raw payload with no legacy gasPrice and an EIP-1559 maxFeePerGas of
20 gwei. -/
def c5raw : RawTx :=
  { hash := "0xbb", fromAddr := "0x01", toAddr := none, value := none,
    gasPrice := none, gas := none, maxFeePerGas := some "0x4a817c800",
    maxPriorityFeePerGas := none, input := "0x", nonce := none, type := none }

/-- The normalization of `c5raw` on chain 1. -/
def c5tx : PendingTx :=
  { hash := "0xbb", chainId := 1, fromAddr := "0x01", toAddr := none,
    value := "0", gasPrice := "20000000000", gasLimit := "0",
    maxFeePerGas := some "20000000000", maxPriorityFeePerGas := none,
    input := "0x", nonce := some 0, type := some 0, status := TxStatus.pending }

/-- Raw payload carrying the EIP-2930 type tag 0x1, outside {0, 2}. -/
def c6raw : RawTx :=
  { hash := "0xcc", fromAddr := "0x01", toAddr := none, value := none,
    gasPrice := none, gas := none, maxFeePerGas := none,
    maxPriorityFeePerGas := none, input := "0x", nonce := none, type := some "0x1" }

/-- The normalization of `c6raw` on chain 1: the type tag survives as 1. -/
def c6tx : PendingTx :=
  { hash := "0xcc", chainId := 1, fromAddr := "0x01", toAddr := none,
    value := "0", gasPrice := "0", gasLimit := "0", maxFeePerGas := none,
    maxPriorityFeePerGas := none, input := "0x", nonce := some 0,
    type := some 1, status := TxStatus.pending }

/-- The upstream reply to the subscribe request rejecting it: id 1, no
result, an error member. -/
def c8msg : WsMessage :=
  { id := some 1, result := none, error := some "subscription rejected",
    method := none, hasParams := false }

/-! ### Lemmas on the decimal rendering -/

theorem decVal_nil : decVal [] = 0 := rfl

theorem decVal_cons (d : Nat) (l : List Nat) :
    decVal (d :: l) = d + 10 * decVal l := rfl

theorem decDigitsCore_decVal (fuel : Nat) :
    ∀ n : Nat, n ≤ fuel → decVal (decDigitsCore fuel n) = n := by
  induction fuel with
  | zero =>
    intro n hn
    interval_cases n
    simp [decDigitsCore, decVal_nil]
  | succ fuel ih =>
    intro n hn
    by_cases h0 : n = 0
    · simp [decDigitsCore, h0, decVal_nil]
    · have hdiv : n / 10 ≤ fuel := by
        have : n / 10 < n := Nat.div_lt_self (Nat.pos_of_ne_zero h0) (by omega)
        omega
      simp only [decDigitsCore, if_neg h0, decVal_cons, ih (n / 10) hdiv]
      omega

theorem decDigitsCore_lt_ten (fuel : Nat) :
    ∀ n d : Nat, d ∈ decDigitsCore fuel n → d < 10 := by
  induction fuel with
  | zero => intro n d hd; simp [decDigitsCore] at hd
  | succ fuel ih =>
    intro n d hd
    by_cases h0 : n = 0
    · simp [decDigitsCore, h0] at hd
    · simp only [decDigitsCore, if_neg h0, List.mem_cons] at hd
      rcases hd with h | h
      · omega
      · exact ih (n / 10) d h

theorem decDigitsCore_ne_nil (fuel : Nat) :
    ∀ n : Nat, 0 < n → n ≤ fuel → decDigitsCore fuel n ≠ [] := by
  intro n hn hfuel
  cases fuel with
  | zero => omega
  | succ fuel => simp [decDigitsCore, Nat.pos_iff_ne_zero.mp hn]

theorem decDigitsCore_getLast?_pos (fuel : Nat) :
    ∀ n d : Nat, 0 < n → n ≤ fuel →
      (decDigitsCore fuel n).getLast? = some d → 0 < d := by
  induction fuel with
  | zero => intro n d hn hfuel; omega
  | succ fuel ih =>
    intro n d hn hfuel hlast
    have h0 : ¬n = 0 := by omega
    simp only [decDigitsCore, if_neg h0] at hlast
    by_cases hsmall : n < 10
    · have hdiv0 : n / 10 = 0 := Nat.div_eq_of_lt hsmall
      rw [hdiv0] at hlast
      have hnil : decDigitsCore fuel 0 = [] := by cases fuel <;> simp [decDigitsCore]
      rw [hnil] at hlast
      simp only [List.getLast?_singleton, Option.some.injEq] at hlast
      have : n % 10 = n := Nat.mod_eq_of_lt hsmall
      omega
    · have hdivpos : 0 < n / 10 := by
        have := Nat.div_pos (by omega : 10 ≤ n) (by omega : 0 < 10)
        exact this
      have hdivle : n / 10 ≤ fuel := by
        have : n / 10 < n := Nat.div_lt_self hn (by omega)
        omega
      have hne : decDigitsCore fuel (n / 10) ≠ [] :=
        decDigitsCore_ne_nil fuel (n / 10) hdivpos hdivle
      rcases htail : decDigitsCore fuel (n / 10) with _ | ⟨x, xs⟩
      · exact absurd htail hne
      · rw [htail, List.getLast?_cons_cons] at hlast
        exact ih (n / 10) d hdivpos hdivle (by rw [htail]; exact hlast)

theorem decDigitVal?_digitChar (d : Nat) (hd : d < 10) :
    decDigitVal? (Char.ofNat (48 + d)) = some d := by
  interval_cases d <;> decide

theorem decParseCore_map_digits (l : List Nat) :
    ∀ acc : Nat, (∀ d ∈ l, d < 10) →
      decParseCore (l.map (fun d => Char.ofNat (48 + d))) acc =
        some (l.foldl (fun a d => 10 * a + d) acc) := by
  induction l with
  | nil => intro acc _; rfl
  | cons d ds ih =>
    intro acc hlt
    have hd : d < 10 := hlt d (List.mem_cons_self d ds)
    simp only [List.map_cons, decParseCore, decDigitVal?_digitChar d hd, List.foldl_cons]
    exact ih (10 * acc + d) (fun x hx => hlt x (List.mem_cons_of_mem d hx))

theorem foldl_reverse_decVal (l : List Nat) :
    (l.reverse).foldl (fun a d => 10 * a + d) 0 = decVal l := by
  induction l with
  | nil => rfl
  | cons d ds ih =>
    simp only [List.reverse_cons, List.foldl_append, List.foldl_cons, List.foldl_nil,
      decVal_cons, ih]
    omega

/-- Parsing the decimal rendering of `n` recovers `n`: the base-10
rendering is exact and lossless. -/
theorem decParse?_decString (n : Nat) : decParse? (decString n) = some n := by
  by_cases h0 : n = 0
  · subst h0; decide
  · have hne : decDigitsCore n n ≠ [] :=
      decDigitsCore_ne_nil n n (Nat.pos_of_ne_zero h0) (Nat.le_refl n)
    have hlt : ∀ d ∈ (decDigitsCore n n).reverse, d < 10 := by
      intro d hd
      exact decDigitsCore_lt_ten n n d (List.mem_reverse.mp hd)
    simp only [decString, if_neg h0, decParse?]
    have hempty : (((decDigitsCore n n).reverse).map (fun d => Char.ofNat (48 + d))).isEmpty = false := by
      rcases htail : decDigitsCore n n with _ | ⟨x, xs⟩
      · exact absurd htail hne
      · simp [htail]
    rw [if_neg (by simp [hempty, hne])]
    rw [decParseCore_map_digits _ 0 hlt, foldl_reverse_decVal,
      decDigitsCore_decVal n n (Nat.le_refl n)]

/-- Every character of the decimal rendering is an ASCII digit; in
particular the rendering carries no sign. -/
theorem decString_digits (n : Nat) :
    ∀ c ∈ (decString n).data, 48 ≤ c.toNat ∧ c.toNat ≤ 57 := by
  by_cases h0 : n = 0
  · subst h0; decide
  · intro c hc
    simp only [decString, if_neg h0] at hc
    have hc' : c ∈ ((decDigitsCore n n).reverse).map (fun d => Char.ofNat (48 + d)) := hc
    rcases List.mem_map.mp hc' with ⟨d, hd, hcd⟩
    have hdlt : d < 10 := decDigitsCore_lt_ten n n d (List.mem_reverse.mp hd)
    subst hcd
    interval_cases d <;> decide

/-- The decimal rendering of a positive value never starts with the
zero digit character: there are no leading zeros. -/
theorem decString_no_leading_zero (n : Nat) (h0 : n ≠ 0) :
    ∀ c : Char, (decString n).data.head? = some c → c ≠ '0' := by
  intro c hc
  simp only [decString, if_neg h0] at hc
  have hc' : (((decDigitsCore n n).reverse).map (fun d => Char.ofNat (48 + d))).head? = some c := hc
  rw [List.head?_map, List.head?_reverse] at hc'
  rcases hlast : (decDigitsCore n n).getLast? with _ | d
  · rw [hlast] at hc'; simp at hc'
  · rw [hlast] at hc'
    simp only [Option.map_some', Option.some.injEq] at hc'
    have hdpos : 0 < d :=
      decDigitsCore_getLast?_pos n n d (Nat.pos_of_ne_zero h0) (Nat.le_refl n) hlast
    have hdlt : d < 10 := by
      have hmem : d ∈ decDigitsCore n n := by
        rcases List.getLast?_eq_some_iff.mp hlast with ⟨ys, hys⟩
        rw [hys]; exact List.mem_append_right ys (List.mem_singleton_self d)
      exact decDigitsCore_lt_ten n n d hmem
    subst hc'
    interval_cases d <;> decide

/-! ### Inversion of the normalizer -/

theorem rawTxToPendingTransaction_inv (raw : RawTx) (cid : Nat) (tx : PendingTx)
    (h : rawTxToPendingTransaction raw cid = some tx) :
    ∃ v gp gl mf mpf,
      jsBigIntStr? (jsOrStr raw.value "0x0") = some v ∧
      jsBigIntStr? (jsOrStr raw.gasPrice (jsOrStr raw.maxFeePerGas "0x0")) = some gp ∧
      jsBigIntStr? (jsOrStr raw.gas "0x0") = some gl ∧
      optBigIntField? raw.maxFeePerGas = some mf ∧
      optBigIntField? raw.maxPriorityFeePerGas = some mpf ∧
      tx =
        { hash := raw.hash
          chainId := cid
          fromAddr := raw.fromAddr
          toAddr := raw.toAddr
          value := decString v
          gasPrice := decString gp
          gasLimit := decString gl
          maxFeePerGas := mf.map decString
          maxPriorityFeePerGas := mpf.map decString
          input := raw.input
          nonce := parseIntHex? (jsOrStr raw.nonce "0x0")
          type :=
            match raw.type with
            | some s => if s = "" then some 0 else parseIntHex? s
            | none => some 0
          status := TxStatus.pending } := by
  simp only [rawTxToPendingTransaction, bind, Option.bind_eq_some, Option.some.injEq] at h
  obtain ⟨v, hv, gp, hgp, gl, hgl, mf, hmf, mpf, hmpf, htx⟩ := h
  exact ⟨v, gp, gl, mf, mpf, hv, hgp, hgl, hmf, hmpf, htx.symm⟩

/-! ### Store lemmas -/

theorem countP_storeUpsert (store : List PendingTx) (tx : PendingTx) (hsh : String)
    (hh : tx.hash = hsh) :
    (storeUpsert store tx).countP (fun r => r.hash == hsh) =
      if store.countP (fun r => r.hash == hsh) = 0 then 1
      else store.countP (fun r => r.hash == hsh) := by
  subst hh
  unfold storeUpsert
  by_cases hany : store.any (fun r => r.hash == tx.hash) = true
  · rw [if_pos hany]
    have hmap : (store.map
        (fun r => if r.hash == tx.hash then { r with status := tx.status } else r)).countP
          (fun r => r.hash == tx.hash) = store.countP (fun r => r.hash == tx.hash) := by
      rw [List.countP_map]
      apply List.countP_congr
      intro r _
      by_cases hr : r.hash == tx.hash
      · simp [Function.comp, hr]
      · simp [Function.comp, hr]
    rw [hmap]
    rcases List.any_eq_true.mp hany with ⟨x, hx, hpx⟩
    have hpos : 0 < store.countP (fun r => r.hash == tx.hash) :=
      List.countP_pos_iff.mpr ⟨x, hx, hpx⟩
    rw [if_neg (by omega)]
  · rw [if_neg hany]
    have hzero : store.countP (fun r => r.hash == tx.hash) = 0 := by
      rw [List.countP_eq_zero]
      intro a ha
      exact fun hpa => hany (List.any_eq_true.mpr ⟨a, ha, hpa⟩)
    rw [List.countP_cons_of_pos _ _ (by simp), hzero]
    simp

/-! ### Claim C1 -/

/-- C1 counterexample: the claim that a later upsert of a pending
observation leaves a stored confirmed record confirmed is false.  With a
confirmed row in the store, handling the same hash with status pending
(upsert resolves) rewrites the stored status to pending. -/
theorem confirmed_downgraded_cex :
    ((handleTransaction [mkTx "0xaa" 1 TxStatus.confirmed]
        (mkTx "0xaa" 1 TxStatus.pending) UpsertOutcome.ok).store.map PendingTx.status
      = [TxStatus.pending])
    ∧ TxStatus.pending ≠ TxStatus.confirmed := by decide

/-- C1 (amended): the upsert is last-write-wins on status, not monotone:
every row of the upserted store that carries the incoming hash carries
the incoming status — in particular re-observing a confirmed hash with
pending downgrades the stored status to pending. -/
theorem upsert_status_last_write (store : List PendingTx) (tx r : PendingTx)
    (hmem : r ∈ storeUpsert store tx) (hhash : r.hash = tx.hash) :
    r.status = tx.status := by
  unfold storeUpsert at hmem
  by_cases hany : store.any (fun x => x.hash == tx.hash) = true
  · rw [if_pos hany] at hmem
    rcases List.mem_map.mp hmem with ⟨a, _, hfa⟩
    by_cases hah : a.hash == tx.hash
    · rw [if_pos hah] at hfa
      rw [← hfa]
    · rw [if_neg hah] at hfa
      subst hfa
      exact absurd (by simp [hhash]) hah
  · rw [if_neg hany] at hmem
    rcases List.mem_cons.mp hmem with h | h
    · subst h; rfl
    · have hfalse : store.any (fun x => x.hash == tx.hash) = false :=
        Bool.not_eq_true _ ▸ hany
      have := List.any_eq_false.mp hfalse
      exact absurd (by simp [hhash]) (this r h)

/-- C1 amended witness at a concrete store and transaction. -/
theorem upsert_status_last_write_witness :
    (mkTx "0xaa" 1 TxStatus.pending ∈
        storeUpsert [mkTx "0xaa" 1 TxStatus.confirmed] (mkTx "0xaa" 1 TxStatus.pending))
    ∧ (mkTx "0xaa" 1 TxStatus.pending).hash = (mkTx "0xaa" 1 TxStatus.pending).hash
    ∧ (mkTx "0xaa" 1 TxStatus.pending).status = (mkTx "0xaa" 1 TxStatus.pending).status :=
  ⟨by decide, rfl,
    upsert_status_last_write [mkTx "0xaa" 1 TxStatus.confirmed]
      (mkTx "0xaa" 1 TxStatus.pending) (mkTx "0xaa" 1 TxStatus.pending)
      (by decide) rfl⟩

/-! ### Claim C2 -/

/-- C2 counterexample: the claim that a non-duplicate store failure still
lets the transaction event be emitted is false.  When the upsert rejects
with a non-duplicate error, the error is logged but the emit — placed
after the upsert inside the same try block — is skipped. -/
theorem store_failure_blocks_broadcast_cex :
    ¬((handleTransaction [] (mkTx "0xbb" 1 TxStatus.pending)
        UpsertOutcome.otherFailure).emitted = true)
    ∧ (handleTransaction [] (mkTx "0xbb" 1 TxStatus.pending)
        UpsertOutcome.otherFailure).loggedError = true := by decide

/-- C2 (amended): the transaction event is emitted exactly when the
upsert resolves; a non-duplicate failure is logged at error level and
suppresses the broadcast, and a duplicate-key failure is absorbed
silently and also suppresses it. -/
theorem emit_iff_upsert_ok (store : List PendingTx) (tx : PendingTx)
    (outcome : UpsertOutcome) :
    ((handleTransaction store tx outcome).emitted = true ↔ outcome = UpsertOutcome.ok)
    ∧ ((handleTransaction store tx outcome).loggedError = true ↔
        outcome = UpsertOutcome.otherFailure) := by
  cases outcome <;> simp [handleTransaction]

/-! ### Claim C3 -/

/-- C3: handling the same hash twice in succession (both upserts resolve)
leaves exactly one store record carrying that hash, while the broadcast
fires once per observation — twice in total. -/
theorem duplicate_absorb (store : List PendingTx) (tx1 tx2 : PendingTx)
    (hh : tx1.hash = tx2.hash)
    (hu : store.countP (fun r => r.hash == tx1.hash) ≤ 1) :
    ((handleTransaction (handleTransaction store tx1 UpsertOutcome.ok).store tx2
        UpsertOutcome.ok).store.countP (fun r => r.hash == tx1.hash) = 1)
    ∧ (handleTransaction store tx1 UpsertOutcome.ok).emitted = true
    ∧ (handleTransaction (handleTransaction store tx1 UpsertOutcome.ok).store tx2
        UpsertOutcome.ok).emitted = true := by
  refine ⟨?_, rfl, rfl⟩
  show ((storeUpsert (storeUpsert store tx1) tx2).countP (fun r => r.hash == tx1.hash) = 1)
  rw [countP_storeUpsert (storeUpsert store tx1) tx2 tx1.hash hh.symm,
    countP_storeUpsert store tx1 tx1.hash rfl]
  split_ifs <;> omega

/-- C3 witness at a concrete pair of observations of one hash. -/
theorem duplicate_absorb_witness :
    (mkTx "0xcc" 1 TxStatus.pending).hash = (mkTx "0xcc" 1 TxStatus.pending).hash
    ∧ ([] : List PendingTx).countP
        (fun r => r.hash == (mkTx "0xcc" 1 TxStatus.pending).hash) ≤ 1
    ∧ (((handleTransaction
          (handleTransaction [] (mkTx "0xcc" 1 TxStatus.pending) UpsertOutcome.ok).store
          (mkTx "0xcc" 1 TxStatus.pending) UpsertOutcome.ok).store.countP
            (fun r => r.hash == (mkTx "0xcc" 1 TxStatus.pending).hash) = 1)
        ∧ (handleTransaction [] (mkTx "0xcc" 1 TxStatus.pending) UpsertOutcome.ok).emitted = true
        ∧ (handleTransaction
            (handleTransaction [] (mkTx "0xcc" 1 TxStatus.pending) UpsertOutcome.ok).store
            (mkTx "0xcc" 1 TxStatus.pending) UpsertOutcome.ok).emitted = true) :=
  ⟨rfl, by decide,
    duplicate_absorb [] (mkTx "0xcc" 1 TxStatus.pending) (mkTx "0xcc" 1 TxStatus.pending)
      rfl (by decide)⟩

/-! ### Claim C4 -/

/-- C4: every big-integer field (value, gasPrice, gasLimit, maxFeePerGas,
maxPriorityFeePerGas) supplied as a 0x-prefixed hex string encoding an
integer up to 256 bits is rendered by the normalizer as exactly the
base-10 decimal string of the decoded integer — parseable back to the
same integer, all characters ASCII digits (so no sign), and no leading
zero. -/
theorem bigint_fields_base10_exact (s : String) (n : Nat) (raw : RawTx) (cid : Nat)
    (hpre : s.data.take 2 = ['0', 'x'])
    (hdec : jsBigIntStr? s = some n)
    (hn : n < 2 ^ 256)
    (hv : raw.value = some s) (hgp : raw.gasPrice = some s) (hgl : raw.gas = some s)
    (hmf : raw.maxFeePerGas = some s) (hmpf : raw.maxPriorityFeePerGas = some s) :
    ∃ tx, rawTxToPendingTransaction raw cid = some tx
      ∧ tx.value = decString n
      ∧ tx.gasPrice = decString n
      ∧ tx.gasLimit = decString n
      ∧ tx.maxFeePerGas = some (decString n)
      ∧ tx.maxPriorityFeePerGas = some (decString n)
      ∧ decParse? (decString n) = some n
      ∧ (∀ c ∈ (decString n).data, 48 ≤ c.toNat ∧ c.toNat ≤ 57)
      ∧ (n ≠ 0 → ∀ c, (decString n).data.head? = some c → c ≠ '0') := by
  have hsne : s ≠ "" := by
    intro he
    subst he
    simp at hpre
  have hor : ∀ b : String, jsOrStr (some s) b = s := by
    intro b; simp [jsOrStr, hsne]
  have hopt : optBigIntField? (some s) = some (some n) := by
    simp [optBigIntField?, hsne, hdec]
  refine ⟨{ hash := raw.hash
            chainId := cid
            fromAddr := raw.fromAddr
            toAddr := raw.toAddr
            value := decString n
            gasPrice := decString n
            gasLimit := decString n
            maxFeePerGas := some (decString n)
            maxPriorityFeePerGas := some (decString n)
            input := raw.input
            nonce := parseIntHex? (jsOrStr raw.nonce "0x0")
            type :=
              match raw.type with
              | some t => if t = "" then some 0 else parseIntHex? t
              | none => some 0
            status := TxStatus.pending },
    ?_, rfl, rfl, rfl, rfl, rfl, decParse?_decString n, decString_digits n,
    fun h0 => decString_no_leading_zero n h0⟩
  simp [rawTxToPendingTransaction, hv, hgp, hgl, hmf, hmpf, hor, hdec, hopt]

/-- C4 witness at the hex literal for one ether in wei. -/
theorem bigint_fields_base10_exact_witness :
    "0xde0b6b3a7640000".data.take 2 = ['0', 'x']
    ∧ jsBigIntStr? "0xde0b6b3a7640000" = some 1000000000000000000
    ∧ 1000000000000000000 < 2 ^ 256
    ∧ (∃ tx, rawTxToPendingTransaction c4raw 1 = some tx
        ∧ tx.value = decString 1000000000000000000
        ∧ tx.gasPrice = decString 1000000000000000000
        ∧ tx.gasLimit = decString 1000000000000000000
        ∧ tx.maxFeePerGas = some (decString 1000000000000000000)
        ∧ tx.maxPriorityFeePerGas = some (decString 1000000000000000000)
        ∧ decParse? (decString 1000000000000000000) = some 1000000000000000000
        ∧ (∀ c ∈ (decString 1000000000000000000).data, 48 ≤ c.toNat ∧ c.toNat ≤ 57)
        ∧ (1000000000000000000 ≠ 0 →
            ∀ c, (decString 1000000000000000000).data.head? = some c → c ≠ '0')) :=
  ⟨by decide, by decide, by decide,
    bigint_fields_base10_exact "0xde0b6b3a7640000" 1000000000000000000 c4raw 1
      (by decide) (by decide) (by decide) rfl rfl rfl rfl rfl⟩

/-! ### Claim C5 -/

/-- C5: the normalized gasPrice is rendered from the first defined of the
raw gasPrice, the raw maxFeePerGas, and zero; in particular an absent
gasPrice with a present maxFeePerGas makes the normalized gasPrice equal
to the normalized maxFeePerGas, and both absent yield the string 0. -/
theorem gasPrice_first_defined (raw : RawTx) (cid : Nat) (tx : PendingTx) (n : Nat)
    (h : rawTxToPendingTransaction raw cid = some tx) :
    (∀ s, raw.gasPrice = some s → s ≠ "" → jsBigIntStr? s = some n →
        tx.gasPrice = decString n)
    ∧ (raw.gasPrice = none → ∀ s, raw.maxFeePerGas = some s → s ≠ "" →
        jsBigIntStr? s = some n →
          tx.gasPrice = decString n ∧ tx.maxFeePerGas = some (decString n))
    ∧ (raw.gasPrice = none → raw.maxFeePerGas = none → tx.gasPrice = "0") := by
  obtain ⟨v, gp, gl, mf, mpf, hv, hgp, hgl, hmf, hmpf, htx⟩ :=
    rawTxToPendingTransaction_inv raw cid tx h
  subst htx
  refine ⟨?_, ?_, ?_⟩
  · intro s hs hne hdec
    rw [hs] at hgp
    rw [show jsOrStr (some s) (jsOrStr raw.maxFeePerGas "0x0") = s from by
      simp [jsOrStr, hne]] at hgp
    have hgpn : gp = n := by
      have := hgp.symm.trans hdec
      exact Option.some.injEq _ _ ▸ this
    simp [hgpn]
  · intro h0 s hs hne hdec
    rw [h0] at hgp
    rw [hs] at hgp hmf
    rw [show jsOrStr none (jsOrStr (some s) "0x0") = s from by
      simp [jsOrStr, hne]] at hgp
    have hgpn : gp = n := by
      have := hgp.symm.trans hdec
      exact Option.some.injEq _ _ ▸ this
    have hmfn : mf = some n := by
      simp only [optBigIntField?, if_neg hne, hdec, Option.map_some',
        Option.some.injEq] at hmf
      exact hmf.symm
    constructor
    · simp [hgpn]
    · simp [hmfn]
  · intro h0 h1
    rw [h0, h1] at hgp
    have hgp0 : gp = 0 := by
      have h00 : jsBigIntStr? (jsOrStr none (jsOrStr none "0x0")) = some 0 := by decide
      have := hgp.symm.trans h00
      exact Option.some.injEq _ _ ▸ this
    simp [hgp0, decString]

/-- C5 witness: a raw payload with maxFeePerGas of 20 gwei and no legacy
gasPrice normalizes with gasPrice equal to the rendered maxFeePerGas. -/
theorem gasPrice_first_defined_witness :
    rawTxToPendingTransaction c5raw 1 = some c5tx
    ∧ ((∀ s, c5raw.gasPrice = some s → s ≠ "" → jsBigIntStr? s = some 20000000000 →
          c5tx.gasPrice = decString 20000000000)
      ∧ (c5raw.gasPrice = none → ∀ s, c5raw.maxFeePerGas = some s → s ≠ "" →
          jsBigIntStr? s = some 20000000000 →
            c5tx.gasPrice = decString 20000000000
            ∧ c5tx.maxFeePerGas = some (decString 20000000000))
      ∧ (c5raw.gasPrice = none → c5raw.maxFeePerGas = none → c5tx.gasPrice = "0")) :=
  ⟨by decide, gasPrice_first_defined c5raw 1 c5tx 20000000000 (by decide)⟩

/-! ### Claim C6 -/

/-- C6 counterexample: the claim that a type outside {0, 2} collapses to
0 is false.  A raw transaction with type 0x1 normalizes to a record with
type 1, not 0: the normalizer keeps the decoded value. -/
theorem type_not_collapsed_cex :
    (rawTxToPendingTransaction c6raw 1).map PendingTx.type = some (some 1)
    ∧ (some (some 1) : Option (Option Nat)) ≠ some (some 0) := by decide

/-- C6 (amended): an absent (or empty, hence falsy) type field normalizes
to 0, but a present type field is hex-decoded verbatim with no
collapsing: any decoded value, inside or outside {0, 2}, is kept. -/
theorem type_decoded_verbatim (raw : RawTx) (cid : Nat) (tx : PendingTx)
    (h : rawTxToPendingTransaction raw cid = some tx) :
    (∀ s t, raw.type = some s → s ≠ "" → parseIntHex? s = some t → tx.type = some t)
    ∧ (raw.type = none → tx.type = some 0) := by
  obtain ⟨v, gp, gl, mf, mpf, hv, hgp, hgl, hmf, hmpf, htx⟩ :=
    rawTxToPendingTransaction_inv raw cid tx h
  subst htx
  constructor
  · intro s t hs hne ht
    simp [hs, hne, ht]
  · intro h0
    simp [h0]

/-- C6 amended witness at the EIP-2930 type tag. -/
theorem type_decoded_verbatim_witness :
    rawTxToPendingTransaction c6raw 1 = some c6tx
    ∧ c6raw.type = some "0x1"
    ∧ parseIntHex? "0x1" = some 1
    ∧ c6tx.type = some 1 :=
  ⟨by decide, rfl, by decide,
    (type_decoded_verbatim c6raw 1 c6tx (by decide)).1 "0x1" 1 rfl (by decide) (by decide)⟩

/-! ### Claim C7 -/

/-- C7: every client that `broadcast` delivers a transaction push to
either has the empty filter (meaning all chains) or a filter containing
the chainId of the transaction; a client whose filter names specific
chains never receives a push for a chainId outside that set. -/
theorem broadcast_respects_filter (clients : List ClientState) (tx : PendingTx)
    (st : ClientState) (h : st ∈ broadcast clients tx) :
    st.subscribedChains = [] ∨ tx.chainId ∈ st.subscribedChains := by
  have hmem := List.mem_filter.mp h
  have hsend : shouldSend st tx.chainId = true := by
    have := hmem.2
    simp only [Bool.and_eq_true] at this
    exact this.1
  simp only [shouldSend, Bool.or_eq_true, List.isEmpty_iff] at hsend
  rcases hsend with h1 | h1
  · exact Or.inl h1
  · exact Or.inr (List.elem_iff.mp h1)

/-- C7 witness at a concrete subscriber set. -/
theorem broadcast_respects_filter_witness :
    (⟨true, [1, 8453]⟩ : ClientState) ∈
        broadcast [⟨true, [1, 8453]⟩, ⟨true, [10]⟩] (mkTx "0xdd" 1 TxStatus.pending)
    ∧ ((⟨true, [1, 8453]⟩ : ClientState).subscribedChains = []
        ∨ (mkTx "0xdd" 1 TxStatus.pending).chainId ∈
            (⟨true, [1, 8453]⟩ : ClientState).subscribedChains) :=
  ⟨by decide,
    broadcast_respects_filter [⟨true, [1, 8453]⟩, ⟨true, [10]⟩]
      (mkTx "0xdd" 1 TxStatus.pending) ⟨true, [1, 8453]⟩ (by decide)⟩

/-! ### Claim C9 -/

/-- C9: a subscribe message with an empty chains array installs the empty
filter, which `broadcast` treats as all chains: the client then passes
the send condition for every chainId, exactly like a freshly connected
client that never subscribed. -/
theorem subscribe_empty_means_all (st : ClientState) (cid : Nat) :
    (handleClientMessage st (ClientMsg.subscribe (some []))).1.subscribedChains = []
    ∧ (handleClientMessage st (ClientMsg.subscribe (some []))).2
        = some (ClientReply.subscribed [])
    ∧ shouldSend (handleClientMessage st (ClientMsg.subscribe (some []))).1 cid = true
    ∧ (handleClientMessage st (ClientMsg.subscribe (some []))).1.subscribedChains
        = initialClientState.subscribedChains := by
  refine ⟨rfl, rfl, ?_, rfl⟩
  simp [handleClientMessage, shouldSend]

/-! ### Claim C10 -/

/-- C10: a chainStatus push is delivered to exactly the connected clients
whose socket is open, regardless of their chain filter — the filter
restricts only transaction pushes, never chain-status pushes (the
membership condition does not mention the filter, the chainId or the
status). -/
theorem chainStatus_ignores_filter (clients : List ClientState) (cid : Nat)
    (connected : Bool) (st : ClientState) :
    st ∈ broadcastChainStatus clients cid connected ↔ st ∈ clients ∧ st.openConn = true := by
  simp [broadcastChainStatus, List.mem_filter]

/-! ### Claim C8 -/

/-- C8 counterexample: the claim that an upstream error reply to the
subscribe request makes the Session close and reconnect is false.  On a
frame with id 1 and an error member the handler logs the error but
schedules no reconnect and closes nothing. -/
theorem subscribe_error_no_reconnect_cex :
    (wsOnMessage none c8msg).loggedError = true
    ∧ ¬((wsOnMessage none c8msg).reconnectScheduled = true)
    ∧ ¬((wsOnMessage none c8msg).socketClosed = true) := by decide

/-- C8 (amended): a frame with a truthy error member that is not a
subscribe ack is logged at error level and otherwise ignored: the
subscription id is kept, no reconnect is scheduled and the socket stays
open.  Reconnects are armed only by the socket close handler. -/
theorem subscribe_error_logged_only (subId : Option String) (msg : WsMessage)
    (herr : optTruthy msg.error = true)
    (hack : (msg.id == some 1 && optTruthy msg.result) = false) :
    wsOnMessage subId msg =
      { subscriptionId := subId, loggedError := true, reconnectScheduled := false,
        socketClosed := false, handledNotification := false }
    ∧ (wsOnClose true).timerScheduled = true := by
  constructor
  · simp [wsOnMessage, hack, herr]
  · rfl

/-- C8 amended witness at the concrete rejection frame. -/
theorem subscribe_error_logged_only_witness :
    optTruthy c8msg.error = true
    ∧ (c8msg.id == some 1 && optTruthy c8msg.result) = false
    ∧ (wsOnMessage none c8msg =
        { subscriptionId := none, loggedError := true, reconnectScheduled := false,
          socketClosed := false, handledNotification := false }
      ∧ (wsOnClose true).timerScheduled = true) :=
  ⟨by decide, by decide,
    subscribe_error_logged_only none c8msg (by decide) (by decide)⟩

end MempoolWatch
